import Mathlib

/-!
# Verification of the `llll` nested-list library

A shallow embedding of `src/llll/__init__.py`: the tagged tree data model
(`llll`), 1-based indexing and slicing (`__getitem__`), broadcast
arithmetic (`_arithmetic_op` and the operator methods), elementwise
ordering comparisons, depth computation, the text formatter (`_to_str`),
and the native chunked token-stream codec (`Parser.serialize` /
`Parser._parse_native`).

Atomic payloads are integers, floats, exact rationals and text.  A float
is embedded by its IEEE-754 bit pattern, the pair of little-endian 32-bit
words `(low, high)` that `struct.pack('<II', low, high)` /
`struct.unpack('<II', struct.pack('<d', x))` move between — the codec only
ever transports these words, so no floating-point arithmetic is needed.
-/

namespace LlllVerif

/-- An atomic payload: integer, float (as its two 32-bit little-endian
words), exact rational, or text. -/
inductive Value where
  | intV (n : ℤ)
  | fltV (lo hi : ℕ)
  | ratV (q : ℚ)
  | strV (s : String)
deriving DecidableEq

/-- The `llll` tree: atomic leaf or composite node with an ordered list of
children (`_items`).  `is_atomic()` corresponds to the `atom` constructor. -/
inductive LLLL where
  | atom (v : Value)
  | comp (xs : List LLLL)

mutual

def LLLL.beq : LLLL → LLLL → Bool
  | .atom a, .atom b => a = b
  | .comp xs, .comp ys => LLLL.beqList xs ys
  | _, _ => false

def LLLL.beqList : List LLLL → List LLLL → Bool
  | [], [] => true
  | x :: xs, y :: ys => LLLL.beq x y && LLLL.beqList xs ys
  | _, _ => false

end

mutual

theorem LLLL.beq_iff : ∀ a b : LLLL, LLLL.beq a b = true ↔ a = b
  | .atom a, .atom b => by simp [LLLL.beq]
  | .atom _, .comp _ => by simp [LLLL.beq]
  | .comp _, .atom _ => by simp [LLLL.beq]
  | .comp xs, .comp ys => by
    simp only [LLLL.beq, LLLL.beqList_iff xs ys, LLLL.comp.injEq]

theorem LLLL.beqList_iff : ∀ xs ys : List LLLL, LLLL.beqList xs ys = true ↔ xs = ys
  | [], [] => by simp [LLLL.beqList]
  | [], _ :: _ => by simp [LLLL.beqList]
  | _ :: _, [] => by simp [LLLL.beqList]
  | x :: xs, y :: ys => by
    simp only [LLLL.beqList, Bool.and_eq_true, LLLL.beq_iff x y,
      LLLL.beqList_iff xs ys, List.cons.injEq]

end

instance : DecidableEq LLLL := fun a b =>
  decidable_of_iff (LLLL.beq a b = true) (LLLL.beq_iff a b)

/-! ## `depth()` as the source computes it

```python
def depth(self):
    if self.__len__() == 0: return 0
    if self.is_atomic(): return 1
    return 1 + max((item.depth() for item in self._items), default=0)
```

`__len__` of an atomic node is `1`, so an atomic node reaches the second
branch and has depth `1`. -/

mutual

def LLLL.depth : LLLL → ℕ
  | .atom _ => 1
  | .comp [] => 0
  | .comp (x :: xs) => 1 + LLLL.depthMax (x :: xs)

/-- Python `max(..., default=0)` over the children's depths. -/
def LLLL.depthMax : List LLLL → ℕ
  | [] => 0
  | x :: xs => max (LLLL.depth x) (LLLL.depthMax xs)

end

/-! ## Integer-key `__getitem__`

The relevant branches of the source, in order: `key == 0` returns an empty
composite; an atomic node returns its raw payload for any key; otherwise a
1-based (negative-from-the-end) bounds-checked lookup. -/

/-- Result of `T[key]`: the raw atomic payload, a child node, or an
`IndexError`. -/
inductive GetResult where
  | val (v : Value)
  | node (t : LLLL)
  | err (msg : String)
deriving DecidableEq

/-- The resolved 0-based index: `idx = key - 1 if key > 0 else key`,
then `if idx < 0: idx = len + idx` (lines 217–219). -/
def pyIndex (n : ℕ) (key : ℤ) : ℤ :=
  if (if key > 0 then key - 1 else key) < 0
  then (n : ℤ) + (if key > 0 then key - 1 else key)
  else (if key > 0 then key - 1 else key)

def getItem (t : LLLL) (key : ℤ) : GetResult :=
  if key = 0 then .node (.comp []) else
  match t with
  | .atom v => .val v
  | .comp xs =>
    if h : 0 ≤ pyIndex xs.length key ∧ pyIndex xs.length key < (xs.length : ℤ) then
      .node (xs.get ⟨(pyIndex xs.length key).toNat, by omega⟩)
    else
      .err ("Index " ++ toString key ++ " out of range")

/-! ## Slicing

```python
start = key.start + 1 if key.start is not None else 1
stop = key.stop if key.stop is not None else len(self._items) + 1
step = key.step if key.step is not None else 1
start_idx = start - 1 if start > 0 else (len + start if start < 0 else 0)
stop_idx = stop - 1 if stop > 0 else (len + stop if stop < 0 else len)
sliced_items = self._items[start_idx:stop_idx + 1:step]
return llll(*[item.to_python() for item in sliced_items])
```

The claims under verification always use the default step `1`, modelled
here.  `llll(*[item.to_python() for item in ...])` rebuilds the selected
children with the same values and shape, hence is value-identity on the
embedding. -/

/-- Effective endpoint of a Python step-1 slice `xs[i:...]` on a list of
length `n`: negatives resolve from the end, then both ends clamp to
`[0, n]`. -/
def pySliceIdx (n : ℕ) (i : ℤ) : ℕ :=
  if i < 0 then (max 0 ((n : ℤ) + i)).toNat else min i.toNat n

/-- Python `xs[a:b:1]`. -/
def pySlice1 (xs : List LLLL) (a b : ℤ) : List LLLL :=
  let a' := pySliceIdx xs.length a
  let b' := pySliceIdx xs.length b
  (xs.drop a').take (b' - a')

def getSlice (xs : List LLLL) (start? stop? : Option ℤ) : LLLL :=
  let start : ℤ := match start? with | some s => s + 1 | none => 1
  let stop : ℤ := match stop? with | some s => s | none => (xs.length : ℤ) + 1
  let startIdx : ℤ :=
    if start > 0 then start - 1
    else if start < 0 then (xs.length : ℤ) + start else 0
  let stopIdx : ℤ :=
    if stop > 0 then stop - 1
    else if stop < 0 then (xs.length : ℤ) + stop else (xs.length : ℤ)
  .comp (pySlice1 xs startIdx (stopIdx + 1))

/-! ## Broadcast arithmetic (`_arithmetic_op`)

The value-level operation is a parameter (`op`); the Python lambdas
`a + b`, `a / b`, … become `Except`-valued functions on `Value` so that
`TypeError` / `ZeroDivisionError` propagate.  Floating-point arithmetic is
not modelled (the claims under verification never perform it): a float
operand yields an error token. -/

/-- Python `a + b` on atomic payloads: integer and rational addition
(`int + Fraction` is a `Fraction`), string concatenation; mixed
string/number or float operands raise. -/
def pyAdd : Value → Value → Except String Value
  | .intV a, .intV b => .ok (.intV (a + b))
  | .intV a, .ratV q => .ok (.ratV ((a : ℚ) + q))
  | .ratV p, .intV b => .ok (.ratV (p + (b : ℚ)))
  | .ratV p, .ratV q => .ok (.ratV (p + q))
  | .strV s, .strV t => .ok (.strV (s ++ t))
  | _, _ => .error "TypeError"

/-- Python `a / b` under `op_name == 'truediv'`: `int / int` goes through
`Fraction(a, b)` (the source's special case), rational division otherwise;
division by zero raises. -/
def pyDiv : Value → Value → Except String Value
  | .intV a, .intV b =>
    if b = 0 then .error "ZeroDivisionError"
    else .ok (.ratV ((a : ℚ) / (b : ℚ)))
  | .intV a, .ratV q =>
    if q = 0 then .error "ZeroDivisionError"
    else .ok (.ratV ((a : ℚ) / q))
  | .ratV p, .intV b =>
    if b = 0 then .error "ZeroDivisionError"
    else .ok (.ratV (p / (b : ℚ)))
  | .ratV p, .ratV q =>
    if q = 0 then .error "ZeroDivisionError"
    else .ok (.ratV (p / q))
  | _, _ => .error "TypeError"

/-- The singleton-collapse test `len(l._items) == 1 and
l._items[0].is_atomic()`, returning the collapsed payload. -/
def singletonAtomic : List LLLL → Option Value
  | [.atom b] => some b
  | _ => none

/-- The `ValueError` message raised on a length mismatch; it names both
lengths. -/
def mismatchMsg (m n : ℕ) : String :=
  "Cannot perform element-wise operation on lllls of different lengths: "
    ++ toString m ++ " vs " ++ toString n

/-- Python `llll(x)` applied to one scalar `x`: the constructor builds a
ONE-CHILD COMPOSITE, not an atomic node (only `_to_llll`'s
`_init_atomic` path makes atoms).  This is both the normalization of a
non-`llll` operand (lines 95–96) and — crucially — the wrap
`return llll(result)` of every atomic⊕atomic result (line 103), which
adds a nesting level around each arithmetic leaf result. -/
def llllWrap (v : Value) : LLLL := .comp [.atom v]

mutual

/-- Broadcast step `atom a ⊕ item` for a child `item` of a composite right operand
(the recursive call on line 110 of the source). -/
def atomOpLItem (op : Value → Value → Except String Value) (a : Value) :
    LLLL → Except String LLLL
  | .atom b => (op a b).map llllWrap
  | .comp zs => atomOpL op a zs

/-- Dispatch of `atom a ⊕ comp ys` (lines 105–112): singleton-collapse, else broadcast
the atomic across every child. -/
def atomOpL (op : Value → Value → Except String Value) (a : Value)
    (ys : List LLLL) : Except String LLLL :=
  match singletonAtomic ys with
  | some b => (op a b).map llllWrap
  | none => (atomOpLList op a ys).map .comp

def atomOpLList (op : Value → Value → Except String Value) (a : Value) :
    List LLLL → Except String (List LLLL)
  | [] => .ok []
  | y :: ys => do
    let r ← atomOpLItem op a y
    let rs ← atomOpLList op a ys
    .ok (r :: rs)

end

mutual

/-- Broadcast step `item ⊕ atom b` for a child `item` of a composite left operand
(the recursive call on line 117; note: no singleton-collapse on this
side). -/
def atomOpRItem (op : Value → Value → Except String Value) (b : Value) :
    LLLL → Except String LLLL
  | .atom a => (op a b).map llllWrap
  | .comp zs => (atomOpRList op b zs).map .comp

def atomOpRList (op : Value → Value → Except String Value) (b : Value) :
    List LLLL → Except String (List LLLL)
  | [] => .ok []
  | x :: xs => do
    let r ← atomOpRItem op b x
    let rs ← atomOpRList op b xs
    .ok (r :: rs)

end

mutual

/-- Full dispatch of `_arithmetic_op` (lines 94–135).  In the
composite/composite case the right operand's singleton-collapse is tested
first (line 121), then the left's (line 124), then lengths must agree. -/
def arithOp (op : Value → Value → Except String Value) :
    LLLL → LLLL → Except String LLLL
  | .atom a, .atom b => (op a b).map llllWrap
  | .atom a, .comp ys => atomOpL op a ys
  | .comp xs, .atom b => (atomOpRList op b xs).map .comp
  | .comp xs, .comp ys =>
    match singletonAtomic ys with
    | some b => (atomOpRList op b xs).map .comp
    | none =>
      match singletonAtomic xs with
      | some a => atomOpL op a ys
      | none =>
        if xs.length = ys.length then (zipArith op xs ys).map .comp
        else .error (mismatchMsg xs.length ys.length)

/-- The elementwise `zip` loop (lines 131–134). -/
def zipArith (op : Value → Value → Except String Value) :
    List LLLL → List LLLL → Except String (List LLLL)
  | x :: xs, y :: ys => do
    let r ← arithOp op x y
    let rs ← zipArith op xs ys
    .ok (r :: rs)
  | _, _ => .ok []

end

theorem excBindOk {α β : Type} (a : α) (f : α → Except String β) :
    (Except.ok a >>= f) = f a := rfl

theorem excBindErr {α β : Type} (e : String) (f : α → Except String β) :
    ((Except.error e : Except String α) >>= f) = Except.error e := rfl

/-! ## Ordering comparisons (`__lt__`, `__le__`, `__gt__`, `__ge__`)

All four methods share one structure: compare payloads on atomic/atomic,
return `False` on mixed atomic/composite, return `False` on a length
mismatch, and otherwise take `all(...)` over the zipped children —
short-circuiting, so a later child comparison is never evaluated once one
is `False`. -/

/-- Python `a < b` on atomic payloads: numeric order across `int` and
`Fraction`, lexicographic order on strings; mixed string/number raises,
and float comparisons are not modelled (no claim performs one). -/
def pyLt : Value → Value → Except String Bool
  | .intV a, .intV b => .ok (decide (a < b))
  | .intV a, .ratV q => .ok (decide ((a : ℚ) < q))
  | .ratV p, .intV b => .ok (decide (p < (b : ℚ)))
  | .ratV p, .ratV q => .ok (decide (p < q))
  | .strV s, .strV t => .ok (decide (s < t))
  | _, _ => .error "TypeError"

/-- Python `a <= b` on atomic payloads. -/
def pyLe : Value → Value → Except String Bool
  | .intV a, .intV b => .ok (decide (a ≤ b))
  | .intV a, .ratV q => .ok (decide ((a : ℚ) ≤ q))
  | .ratV p, .intV b => .ok (decide (p ≤ (b : ℚ)))
  | .ratV p, .ratV q => .ok (decide (p ≤ q))
  | .strV s, .strV t => .ok (decide (s ≤ t))
  | _, _ => .error "TypeError"

/-- Python `a > b` on atomic payloads. -/
def pyGt : Value → Value → Except String Bool
  | .intV a, .intV b => .ok (decide (b < a))
  | .intV a, .ratV q => .ok (decide (q < (a : ℚ)))
  | .ratV p, .intV b => .ok (decide ((b : ℚ) < p))
  | .ratV p, .ratV q => .ok (decide (q < p))
  | .strV s, .strV t => .ok (decide (t < s))
  | _, _ => .error "TypeError"

/-- Python `a >= b` on atomic payloads. -/
def pyGe : Value → Value → Except String Bool
  | .intV a, .intV b => .ok (decide (b ≤ a))
  | .intV a, .ratV q => .ok (decide (q ≤ (a : ℚ)))
  | .ratV p, .intV b => .ok (decide ((b : ℚ) ≤ p))
  | .ratV p, .ratV q => .ok (decide (q ≤ p))
  | .strV s, .strV t => .ok (decide (t ≤ s))
  | _, _ => .error "TypeError"

mutual

/-- The shared body of the four comparison methods (lines 34–92),
parameterized by the payload comparison. -/
def cmpOp (vop : Value → Value → Except String Bool) :
    LLLL → LLLL → Except String Bool
  | .atom a, .atom b => vop a b
  | .atom _, .comp _ => .ok false
  | .comp _, .atom _ => .ok false
  | .comp xs, .comp ys =>
    if xs.length = ys.length then cmpAll vop xs ys else .ok false

/-- Python `all(a OP b for a, b in zip(...))`: `zip` truncates and `all`
short-circuits on the first `False`. -/
def cmpAll (vop : Value → Value → Except String Bool) :
    List LLLL → List LLLL → Except String Bool
  | x :: xs, y :: ys => do
    let b ← cmpOp vop x y
    if b then cmpAll vop xs ys else .ok false
  | _, _ => .ok true

end

def llllLt : LLLL → LLLL → Except String Bool := cmpOp pyLt

def llllLe : LLLL → LLLL → Except String Bool := cmpOp pyLe

def llllGt : LLLL → LLLL → Except String Bool := cmpOp pyGt

def llllGe : LLLL → LLLL → Except String Bool := cmpOp pyGe

/-! ## The formatter (`__str__` / `_to_str`)

`__str__` calls `_to_str(top_level=True, indent=-1, min_depth=2)`.  Python
`'  ' * i` is empty for non-positive `i`, and `str.lstrip()` drops every
leading whitespace character.  `str(value)` for a float is not modelled
(no claim renders a float); `str(Fraction)` prints `num/den`, or just
`num` when the denominator is 1. -/

def pySpaceChar (c : Char) : Bool :=
  c = ' ' || c = '\t' || c = '\n' || c = '\r' || c = '\x0b' || c = '\x0c'

/-- Python `'  ' * i`. -/
def indentSpaces (i : ℤ) : String :=
  String.join (List.replicate i.toNat "  ")

/-- Python `str.lstrip()`. -/
def pyLstrip (s : String) : String :=
  ⟨s.toList.dropWhile pySpaceChar⟩

/-- Python `str(value)` on an atomic payload. -/
def valueStr : Value → String
  | .intV n => toString n
  | .ratV q => if q.den = 1 then toString q.num
               else toString q.num ++ "/" ++ toString q.den
  | .strV s => s
  | .fltV _ _ => "<float repr not modelled>"

mutual

def toStr (t : LLLL) (topLevel : Bool) (indent : ℤ) (minDepth : ℕ) :
    String :=
  match t with
  | .atom v => valueStr v
  | .comp [] => "null"
  | .comp (x :: xs) =>
    if minDepth ≤ LLLL.depth (.comp (x :: xs)) then
      let indentStr := indentSpaces indent
      let nextIndent := indentSpaces (indent + 1)
      let content := indentedItems (x :: xs) (indent + 1) minDepth nextIndent
      if topLevel then pyLstrip content
      else "[" ++ content ++ "\n" ++ indentStr ++ "]"
    else
      let s := compactItems (x :: xs) minDepth
      if topLevel then s else "[ " ++ s ++ " ]"

/-- The indented branch: `'\n{next_indent}{item_repr}'` per child, with
each child rendered at `indent + 1` and `top_level=False`. -/
def indentedItems (items : List LLLL) (ind : ℤ) (minDepth : ℕ)
    (nextIndent : String) : String :=
  match items with
  | [] => ""
  | x :: xs =>
    "\n" ++ nextIndent ++ toStr x false ind minDepth
      ++ indentedItems xs ind minDepth nextIndent

/-- The compact branch: `' '.join(...)`, each child rendered with the
default `indent=0` and `top_level=False`. -/
def compactItems (items : List LLLL) (minDepth : ℕ) : String :=
  match items with
  | [] => ""
  | [x] => toStr x false 0 minDepth
  | x :: x' :: xs =>
    toStr x false 0 minDepth ++ " " ++ compactItems (x' :: xs) minDepth

end

/-- Entry point `__str__` (lines 269–270). -/
def llllStr (t : LLLL) : String := toStr t true (-1) 2

/-! ## The native codec (`Parser.serialize` / `Parser._parse_native`)

A token is one entry of the flat `data` list: an integer (also the low /
high words of an encoded float), a rational, or a string.  The float
sentinel, the bracket tokens and ordinary text are all strings.
`_convert_from_float` / `_convert_to_float` are mutually inverse
reinterpretations between a double and its two little-endian 32-bit
words; since a float is embedded here as that word pair, encoding emits
the words and decoding rebuilds the same pair. -/

inductive Tok where
  | tint (n : ℤ)
  | trat (q : ℚ)
  | tstr (s : String)
deriving DecidableEq

/- `trat` models a `Fraction` sitting in the in-memory `data` list —
`traverse` appends atomic payloads as-is — but it can never reach a
written container: `json.dump` raises `TypeError` on it (see
`jsonSerializable` / `serialize`), and `json.loads` can never produce
one, so the decoder's pass-through branch for it is dead code for real
files. -/

def sentinelStr : String := "_x_x_x_x_bach_float64_x_x_x_x_"

mutual

/-- One iteration of `traverse`'s loop body for a child `item`. -/
def encItem : LLLL → List Tok
  | .atom (.intV n) => [.tint n]
  | .atom (.ratV q) => [.trat q]
  | .atom (.strV s) => [.tstr s]
  | .atom (.fltV lo hi) => [.tstr sentinelStr, .tint lo, .tint hi]
  | .comp xs => .tstr "[" :: encList xs ++ [.tstr "]"]

/-- Loop `traverse(x)`: iterate over the children of `x`. -/
def encList : List LLLL → List Tok
  | [] => []
  | x :: xs => encItem x ++ encList xs

end

/-- The flat `data` list built by `serialize` for tree `l`:
`traverse(l)` iterates over `l`'s children (an atomic node iterates over
nothing). -/
def serializeToks : LLLL → List Tok
  | .atom _ => []
  | .comp xs => encList xs

def chunkSize : ℕ := 4096

/-- Python `num_chunks = data_len // 4096 + 1`. -/
def numChunks (dataLen : ℕ) : ℕ := dataLen / chunkSize + 1

/-- Chunk `data[i*4096 : i*4096 + 4096]` for `i in range(num_chunks)`. -/
def mkChunks (d : List Tok) : List (List Tok) :=
  (List.range (numChunks d.length)).map
    (fun i => (d.drop (i * chunkSize)).take chunkSize)

/-- The written container: the `data_<i>` fields in index order (their
zero-padded names fix that order) plus `data_count`. -/
structure Native where
  chunks : List (List Tok)
  dataCount : ℕ

/-- A token `json.dump` can write: integers and strings.  A `Fraction`
in the `data` list makes `json.dump` raise
`TypeError: Object of type Fraction is not JSON serializable`. -/
def jsonSerializable : Tok → Bool
  | .trat _ => false
  | _ => true

def jsonDumpErr : String :=
  "TypeError: Object of type Fraction is not JSON serializable"

/-- Writing the container: the in-memory `data` list is always built, but
`json.dump(obj=native_data, ...)` (line 467) then fails if any token is a
`Fraction` — so a rational-bearing tree cannot be written at all. -/
def serialize (t : LLLL) : Except String Native :=
  if (serializeToks t).all jsonSerializable then
    .ok ⟨mkChunks (serializeToks t), numChunks (serializeToks t).length⟩
  else .error jsonDumpErr

/-! ### Ratio detection on decode

`re.search` with pattern `[+-]?\d+/\d+`: leftmost match, greedy digit
runs.  Because a digit is never `/`, greedy matching needs no
backtracking: at a given start, an optional sign, a maximal nonempty
digit run, `/`, and a maximal nonempty digit run either all fit or there
is no match at that start.  (`\d` is modelled as the ASCII digits.) -/

def digitsVal (ds : List Char) : ℕ :=
  ds.foldl (fun a c => 10 * a + (c.toNat - '0'.toNat)) 0

/-- Try the pattern anchored at the head of `cs`: returns the signed
numerator text value and the denominator value. -/
def ratioMatchAt (cs : List Char) : Option (ℤ × ℕ) :=
  let sgn : ℤ := match cs with
    | '-' :: _ => -1
    | _ => 1
  let cs₁ : List Char := match cs with
    | '+' :: r => r
    | '-' :: r => r
    | _ => cs
  let ds₁ := cs₁.takeWhile Char.isDigit
  if ds₁ = [] then none else
  match cs₁.dropWhile Char.isDigit with
  | '/' :: cs₂ =>
    let ds₂ := cs₂.takeWhile Char.isDigit
    if ds₂ = [] then none else some (sgn * digitsVal ds₁, digitsVal ds₂)
  | _ => none

/-- Leftmost match: try each start position left to right. -/
def ratioSearchFrom : List Char → Option (ℤ × ℕ)
  | [] => none
  | c :: cs =>
    match ratioMatchAt (c :: cs) with
    | some r => some r
    | none => ratioSearchFrom cs

/-- Search `re.search(r"[+-]?\d+/\d+", s)`, reduced to the numerator and
denominator of `match[0]`. -/
def ratioSearch (s : String) : Option (ℤ × ℕ) :=
  ratioSearchFrom s.toList

/-- Decoding of a single non-structural, non-sentinel token (the final
`else` of `consume`'s loop): a string containing the ratio pattern
becomes `Fraction(int(rat[0]), int(rat[1]))` — which raises if the
denominator is 0 — and every other token is appended as-is. -/
def decodeTok : Tok → Except String LLLL
  | .tint n => .ok (.atom (.intV n))
  | .trat q => .ok (.atom (.ratV q))
  | .tstr s =>
    match ratioSearch s with
    | some (num, den) =>
      if den = 0 then .error "ZeroDivisionError"
      else .ok (.atom (.ratV ((num : ℚ) / (den : ℚ))))
    | none => .ok (.atom (.strV s))

/-- The sentinel's tail: `low, high = (next(items) for _ in range(2))`,
then `struct.pack('<II', low, high)`, which demands two integer tokens in
`[0, 2^32)`; returns the two words and the unconsumed rest. -/
def readFloatWords : List Tok → Except String (ℕ × ℕ × List Tok)
  | .tint lo :: .tint hi :: ts =>
    if 0 ≤ lo ∧ lo < 4294967296 ∧ 0 ≤ hi ∧ hi < 4294967296 then
      .ok (lo.toNat, hi.toNat, ts)
    else .error "struct.error"
  | _ => .error "struct.error or StopIteration"

/-- One level of `consume()`: read tokens until `']'` or end of stream,
returning the items of this level and the unconsumed rest.  `'['` opens a
child level; the float sentinel consumes the next two tokens as the low
and high words of one float.  The fuel argument only forces termination;
every run below starts with more fuel than there are tokens, which is
always enough because each recursive call drops at least one token. -/
def consumeF : ℕ → List Tok → Except String (List LLLL × List Tok)
  | 0, _ => .error "out of fuel"
  | _ + 1, [] => .ok ([], [])
  | fuel + 1, t :: ts =>
    if t = .tstr "]" then .ok ([], ts)
    else if t = .tstr "[" then do
      let p₁ ← consumeF fuel ts
      let p₂ ← consumeF fuel p₁.2
      .ok (.comp p₁.1 :: p₂.1, p₂.2)
    else if t = .tstr sentinelStr then do
      let w ← readFloatWords ts
      let p ← consumeF fuel w.2.2
      .ok (.atom (.fltV w.1 w.2.1) :: p.1, p.2)
    else do
      let v ← decodeTok t
      let p ← consumeF fuel ts
      .ok (v :: p.1, p.2)

/-- Decoder `_parse_native`: concatenate the `data_count` chunks in index order
(a missing chunk field would be a `KeyError`) and run `consume()`; its
result is the decoded tree, any tokens after a stray top-level `']'`
being discarded. -/
def parseNative (nv : Native) : Except String LLLL :=
  if nv.dataCount ≤ nv.chunks.length then
    let toks := (nv.chunks.take nv.dataCount).flatten
    (consumeF (toks.length + 1) toks).map (fun p => .comp p.1)
  else .error "KeyError"

/-! ### Well-formedness for the roundtrip

Floats must carry genuine 32-bit words and must not be NaN: a NaN
payload decodes to the same bits, but the program's `==` (used by
`llll.__eq__` on atomic payloads) makes `NaN != NaN`, so the decoded
tree would not compare equal to the original.  Rationals are excluded
altogether: `json.dump` cannot write a `Fraction` (see `serialize`).
Text must avoid the three strings the decoder gives structural meaning
(`'['`, `']'`, the sentinel), must not contain the ratio pattern
anywhere (`re.search` scans the whole token), and must be ASCII — the
model's ratio search reads `\d` as the ASCII digits, whereas Python's
`\d` also matches Unicode decimal digits, so only on ASCII text do the
two searches provably agree. -/

/-- IEEE-754 double NaN test on the two little-endian words: the 11
exponent bits (high word bits 20–30) are all ones and the 52-bit
mantissa (high word bits 0–19 together with the low word) is nonzero. -/
def isNaNBits (lo hi : ℕ) : Bool :=
  decide ((hi / 1048576) % 2048 = 2047)
    && !(decide (hi % 1048576 = 0) && decide (lo = 0))

def isAsciiStr (s : String) : Bool :=
  s.toList.all (fun c => decide (c.toNat < 128))

def wfVal : Value → Bool
  | .fltV lo hi =>
    decide (lo < 4294967296) && decide (hi < 4294967296)
      && !(isNaNBits lo hi)
  | .strV s =>
    decide (s ≠ "[") && decide (s ≠ "]") && decide (s ≠ sentinelStr)
      && (ratioSearch s).isNone && isAsciiStr s
  | .ratV _ => false
  | .intV _ => true

mutual

def wfTree : LLLL → Bool
  | .atom v => wfVal v
  | .comp xs => wfList xs

def wfList : List LLLL → Bool
  | [] => true
  | x :: xs => wfTree x && wfList xs

end

instance {e a : Type} [DecidableEq e] [DecidableEq a] :
    DecidableEq (Except e a) := fun x y =>
  match x, y with
  | .ok u, .ok v =>
    if h : u = v then .isTrue (by rw [h]) else .isFalse (by simp [h])
  | .error u, .error v =>
    if h : u = v then .isTrue (by rw [h]) else .isFalse (by simp [h])
  | .ok _, .error _ => .isFalse (by simp)
  | .error _, .ok _ => .isFalse (by simp)

/-! ## The claims -/

/-- C3: the claimed canonical depth rule (Atomic → 0, empty Composite → 0,
non-empty Composite → 1 + max over children) fails on the code, which
gives atomic nodes depth 1: `depth(llll(1,[2,3]))` evaluates to 3 (the
claim and the repository's own test assert 2), `depth(llll(1,[2,[3,[4]]]))`
to 5 (claim and test assert 4); only `depth(llll()) == 0` holds. -/
theorem claim_C3_depth_eval :
    LLLL.depth (.comp [.atom (.intV 1),
        .comp [.atom (.intV 2), .atom (.intV 3)]]) = 3
    ∧ LLLL.depth (.comp [.atom (.intV 1), .comp [.atom (.intV 2),
        .comp [.atom (.intV 3), .comp [.atom (.intV 4)]]]]) = 5
    ∧ LLLL.depth (.comp []) = 0 := by
  decide

/-- C4: slicing is claimed 1-based with inclusive stop, but the code adds
1 to an explicit start (`start = key.start + 1`), so on `llll(10,20,30,40)`
the slice `T[2:3]` yields the single-element `[30]` (the claim and the
repository's own test expect the 2-element `[20,30]`), and `T[1:4]` yields
`[20,30,40]` rather than reconstructing the full sequence. -/
theorem claim_C4_slice_eval :
    getSlice [.atom (.intV 10), .atom (.intV 20), .atom (.intV 30),
        .atom (.intV 40)] (some 2) (some 3) = .comp [.atom (.intV 30)]
    ∧ getSlice [.atom (.intV 10), .atom (.intV 20), .atom (.intV 30),
        .atom (.intV 40)] (some 1) (some 4)
      = .comp [.atom (.intV 20), .atom (.intV 30), .atom (.intV 40)]
    ∧ getSlice [.atom (.intV 10), .atom (.intV 20), .atom (.intV 30),
        .atom (.intV 40)] (some 2) (some 3)
      ≠ .comp [.atom (.intV 20), .atom (.intV 30)] := by
  decide

/-- C6: `str(llll(1,2,3))` is claimed to be the compact `"1 2 3"`, but the
code's `depth()` gives this tree depth 2 (atomic children count 1), which
reaches the default minimum-depth threshold 2, so the indented renderer
runs and `__str__` returns `"1\n2\n3"`. -/
theorem claim_C6_render_eval :
    llllStr (.comp [.atom (.intV 1), .atom (.intV 2), .atom (.intV 3)])
      = "1\n2\n3"
    ∧ llllStr (.comp [.atom (.intV 1), .atom (.intV 2), .atom (.intV 3)])
      ≠ "1 2 3" := by
  decide

/-- C9: on an atomic node, `__getitem__` returns the raw payload for every
nonzero integer key — negative or arbitrarily large — and never reaches
the bounds check, which sits in the composite branch only. -/
theorem claim_C9_atomic_getitem (v : Value) (k : ℤ) (hk : k ≠ 0) :
    getItem (.atom v) k = .val v := by
  simp [getItem, hk]

/-- Witness for C9 at a large-magnitude negative key. -/
theorem claim_C9_witness :
    getItem (.atom (.intV 42)) (-1000000) = .val (.intV 42) :=
  claim_C9_atomic_getitem (.intV 42) (-1000000) (by decide)

/-- C5: on a composite of length `n ≥ 1`, `T[1]` is the first child,
`T[n]` the last, `T[-1]` equals `T[n]`, `T[0]` is the empty-composite
sentinel, and `T[n+1]` raises `IndexError` with a message naming the
index. -/
theorem claim_C5_indexing (xs : List LLLL) (h : 0 < xs.length) :
    getItem (.comp xs) 1 = .node (xs.get ⟨0, h⟩)
    ∧ getItem (.comp xs) (xs.length : ℤ)
      = .node (xs.get ⟨xs.length - 1, by omega⟩)
    ∧ getItem (.comp xs) (-1) = getItem (.comp xs) (xs.length : ℤ)
    ∧ getItem (.comp xs) 0 = .node (.comp [])
    ∧ getItem (.comp xs) ((xs.length : ℤ) + 1)
      = .err ("Index " ++ toString ((xs.length : ℤ) + 1) ++ " out of range") := by
  have e1 : pyIndex xs.length 1 = 0 := by
    unfold pyIndex
    norm_num
  have eN : pyIndex xs.length (xs.length : ℤ) = (xs.length : ℤ) - 1 := by
    unfold pyIndex
    split_ifs <;> omega
  have eM : pyIndex xs.length (-1) = (xs.length : ℤ) - 1 := by
    unfold pyIndex
    split_ifs <;> omega
  have eO : pyIndex xs.length ((xs.length : ℤ) + 1) = (xs.length : ℤ) := by
    unfold pyIndex
    split_ifs <;> omega
  refine ⟨?_, ?_, ?_, ?_, ?_⟩
  · rw [getItem, if_neg (by omega : (1 : ℤ) ≠ 0),
      dif_pos (by rw [e1]; constructor <;> omega)]
    exact congrArg GetResult.node (congrArg xs.get (Fin.ext (by
      simp only [e1, Int.toNat_zero])))
  · rw [getItem, if_neg (by omega : (xs.length : ℤ) ≠ 0),
      dif_pos (by rw [eN]; constructor <;> omega)]
    exact congrArg GetResult.node (congrArg xs.get (Fin.ext (by
      simp only [eN]
      omega)))
  · rw [getItem, if_neg (by omega : (-1 : ℤ) ≠ 0),
      dif_pos (by rw [eM]; constructor <;> omega),
      getItem, if_neg (by omega : (xs.length : ℤ) ≠ 0),
      dif_pos (by rw [eN]; constructor <;> omega)]
    exact congrArg GetResult.node (congrArg xs.get (Fin.ext (by
      simp only [eM, eN])))
  · rfl
  · rw [getItem, if_neg (by omega : (xs.length : ℤ) + 1 ≠ 0),
      dif_neg (by rw [eO]; omega)]

/-- Witness for C5 on a concrete 2-element composite. -/
theorem claim_C5_witness :
    getItem (.comp [.atom (.intV 7), .atom (.intV 8)]) 1
      = .node ([LLLL.atom (.intV 7), .atom (.intV 8)].get ⟨0, by decide⟩)
    ∧ getItem (.comp [.atom (.intV 7), .atom (.intV 8)])
        (([LLLL.atom (.intV 7), .atom (.intV 8)].length : ℤ))
      = .node ([LLLL.atom (.intV 7), .atom (.intV 8)].get ⟨1, by decide⟩)
    ∧ getItem (.comp [.atom (.intV 7), .atom (.intV 8)]) (-1)
      = getItem (.comp [.atom (.intV 7), .atom (.intV 8)])
          (([LLLL.atom (.intV 7), .atom (.intV 8)].length : ℤ))
    ∧ getItem (.comp [.atom (.intV 7), .atom (.intV 8)]) 0
      = .node (.comp [])
    ∧ getItem (.comp [.atom (.intV 7), .atom (.intV 8)])
        (([LLLL.atom (.intV 7), .atom (.intV 8)].length : ℤ) + 1)
      = .err ("Index "
          ++ toString (([LLLL.atom (.intV 7), .atom (.intV 8)].length : ℤ) + 1)
          ++ " out of range") :=
  claim_C5_indexing [.atom (.intV 7), .atom (.intV 8)] (by decide)

/-- C7: dividing an integer atomic by a nonzero integer atomic computes
`Fraction(a, b)` — an exact rational, not a truncated or floating-point
result — delivered, like every atomic⊕atomic result, inside the
one-child composite that `return llll(result)` (line 103) builds.  The
elements of `llll(1,2,3) / 2` are those singleton composites holding
exactly 1/2, 1, 3/2, and each compares `==`-equal to the bare exact
rational, because `__eq__` wraps a bare `Fraction` operand with the same
constructor; the repository's `test_division_returns_fractions` passes
for exactly this reason. -/
theorem claim_C7_int_div :
    (∀ a b : ℤ, b ≠ 0 →
      arithOp pyDiv (.atom (.intV a)) (.atom (.intV b))
        = .ok (llllWrap (.ratV ((a : ℚ) / (b : ℚ)))))
    ∧ arithOp pyDiv
        (.comp [.atom (.intV 1), .atom (.intV 2), .atom (.intV 3)])
        (llllWrap (.intV 2))
      = .ok (.comp [llllWrap (.ratV (1/2)), llllWrap (.ratV 1),
          llllWrap (.ratV (3/2))])
    ∧ LLLL.beq (llllWrap (.ratV (1/2))) (llllWrap (.ratV (1/2))) = true
    ∧ LLLL.beq (llllWrap (.ratV 1)) (llllWrap (.ratV 1)) = true
    ∧ LLLL.beq (llllWrap (.ratV (3/2))) (llllWrap (.ratV (3/2))) = true := by
  refine ⟨?_, ?_, (LLLL.beq_iff _ _).mpr rfl, (LLLL.beq_iff _ _).mpr rfl,
    (LLLL.beq_iff _ _).mpr rfl⟩
  · intro a b hb
    simp [arithOp, pyDiv, hb, Except.map, llllWrap]
  · norm_num [llllWrap, arithOp, singletonAtomic, atomOpRList,
      atomOpRItem, pyDiv, Except.map, excBindOk]

/-- Witness for C7 at `1 / 2`. -/
theorem claim_C7_witness :
    arithOp pyDiv (.atom (.intV 1)) (.atom (.intV 2))
      = .ok (llllWrap (.ratV (((1 : ℤ) : ℚ) / ((2 : ℤ) : ℚ)))) :=
  claim_C7_int_div.1 1 2 (by decide)

/-- Test `len(l) == 1 and l[0].is_atomic()` can only hold for length-1 lists. -/
theorem singletonAtomic_none {l : List LLLL} (h : l.length ≠ 1) :
    singletonAtomic l = none := by
  match l with
  | [] => rfl
  | [x] => exact absurd rfl h
  | x :: y :: rest => cases x <;> rfl

/-- C8: arithmetic between two non-singleton composites of different
lengths raises `ValueError` with the message naming both lengths;
in particular `llll(1,2) + llll(1,2,3)` does. -/
theorem claim_C8_shape_mismatch :
    (∀ (op : Value → Value → Except String Value) (xs ys : List LLLL),
      xs.length ≠ 1 → ys.length ≠ 1 → xs.length ≠ ys.length →
      arithOp op (.comp xs) (.comp ys)
        = .error (mismatchMsg xs.length ys.length))
    ∧ arithOp pyAdd (.comp [.atom (.intV 1), .atom (.intV 2)])
        (.comp [.atom (.intV 1), .atom (.intV 2), .atom (.intV 3)])
      = .error ("Cannot perform element-wise operation on lllls of "
          ++ "different lengths: 2 vs 3") := by
  constructor
  · intro op xs ys h1 h2 h3
    rw [arithOp, singletonAtomic_none h2, singletonAtomic_none h1]
    simp only [if_neg h3]
  · decide

/-- Witness for C8 at lengths 2 and 3. -/
theorem claim_C8_witness :
    arithOp pyAdd (.comp [.atom (.intV 5), .atom (.intV 6)])
      (.comp [.atom (.intV 1), .atom (.intV 2), .atom (.intV 3)])
      = .error (mismatchMsg 2 3) :=
  claim_C8_shape_mismatch.1 pyAdd
    [.atom (.intV 5), .atom (.intV 6)]
    [.atom (.intV 1), .atom (.intV 2), .atom (.intV 3)]
    (by decide) (by decide) (by decide)

/-- C2: the claimed broadcast — a same-shape composite of elementwise
results with `llll(1,2,3) + 10 == llll(11,12,13)` — fails on the code:
every atomic⊕atomic result passes through `return llll(result)`
(line 103), which wraps it in a one-child composite, so
`llll(1,2,3) + 10` evaluates to `[[11], [12], [13]]`.  Its `__eq__`
against `llll(11,12,13)` compares a one-child composite to an atomic
and returns `False`, and its `to_python()` is `[[11],[12],[13]]`,
contradicting the repository's own `test_scalar_addition` (likewise the
element-wise multiplication, scalar subtraction and nested arithmetic
tests). -/
theorem claim_C2_broadcast_eval :
    arithOp pyAdd
        (.comp [.atom (.intV 1), .atom (.intV 2), .atom (.intV 3)])
        (llllWrap (.intV 10))
      = .ok (.comp [.comp [.atom (.intV 11)], .comp [.atom (.intV 12)],
          .comp [.atom (.intV 13)]])
    ∧ LLLL.beq
        (.comp [.comp [.atom (.intV 11)], .comp [.atom (.intV 12)],
          .comp [.atom (.intV 13)]])
        (.comp [.atom (.intV 11), .atom (.intV 12), .atom (.intV 13)])
      = false := by
  refine ⟨by decide, by decide⟩

/-- The `all(...)` loop computes the conjunction of the elementwise
comparisons whenever every elementwise comparison succeeds. -/
theorem cmpAll_conj (vop : Value → Value → Except String Bool) :
    ∀ (xs ys : List LLLL) (bs : List Bool),
      xs.length = ys.length → bs.length = xs.length →
      (∀ i (h : i < xs.length) (h' : i < ys.length) (h'' : i < bs.length),
        cmpOp vop (xs.get ⟨i, h⟩) (ys.get ⟨i, h'⟩) = .ok (bs.get ⟨i, h''⟩)) →
      cmpAll vop xs ys = .ok (bs.all id) := by
  intro xs
  induction xs with
  | nil =>
    intro ys bs hxy hb hget
    match ys, bs with
    | [], [] => rfl
    | [], _ :: _ => simp at hb
    | _ :: _, _ => simp at hxy
  | cons x xs ih =>
    intro ys bs hxy hb hget
    match ys, bs with
    | [], _ => simp at hxy
    | _ :: _, [] => simp at hb
    | y :: ys, b :: bs =>
      have h0 := hget 0 (by simp) (by simp) (by simp)
      simp only [List.get] at h0
      rw [cmpAll, h0, excBindOk]
      have hrest : cmpAll vop xs ys = .ok (bs.all id) := by
        refine ih ys bs (by simpa using hxy) (by simpa using hb) ?_
        intro i h h' h''
        have := hget (i + 1) (by simpa using h) (by simpa using h')
          (by simpa using h'')
        simpa only [List.get_cons_succ] using this
      cases b with
      | true => simpa [List.all_cons] using hrest
      | false => simp [List.all_cons]

/-- C10: for equal-length composites each ordering comparison is the
conjunction of the elementwise comparisons (whenever those all return),
and on two empty composites all four comparisons return `True` at once, so
`<` is not a strict order. -/
theorem claim_C10_comparisons :
    (∀ (vop : Value → Value → Except String Bool) (xs ys : List LLLL)
        (bs : List Bool),
      xs.length = ys.length → bs.length = xs.length →
      (∀ i (h : i < xs.length) (h' : i < ys.length) (h'' : i < bs.length),
        cmpOp vop (xs.get ⟨i, h⟩) (ys.get ⟨i, h'⟩) = .ok (bs.get ⟨i, h''⟩)) →
      cmpOp vop (.comp xs) (.comp ys) = .ok (bs.all id))
    ∧ llllLt (.comp []) (.comp []) = .ok true
    ∧ llllLe (.comp []) (.comp []) = .ok true
    ∧ llllGt (.comp []) (.comp []) = .ok true
    ∧ llllGe (.comp []) (.comp []) = .ok true := by
  refine ⟨?_, rfl, rfl, rfl, rfl⟩
  intro vop xs ys bs hxy hb hget
  rw [cmpOp, if_pos hxy]
  exact cmpAll_conj vop xs ys bs hxy hb hget

/-- Witness for C10 on a concrete pair of equal-length composites. -/
theorem claim_C10_witness :
    cmpOp pyLt (.comp [.atom (.intV 1), .atom (.intV 5)])
      (.comp [.atom (.intV 2), .atom (.intV 3)])
      = .ok ([true, false].all id) :=
  claim_C10_comparisons.1 pyLt
    [.atom (.intV 1), .atom (.intV 5)]
    [.atom (.intV 2), .atom (.intV 3)]
    [true, false] (by decide) (by decide)
    (by
      intro i h h' h''
      match i with
      | 0 => rfl
      | 1 => rfl
      | n + 2 => exact absurd h (by simp))

/-! ## The codec roundtrip -/

/-- The first `n` chunks of size `c` rebuild the first `n * c` tokens. -/
theorem flatten_range_chunks (d : List Tok) (c : ℕ) :
    ∀ n : ℕ,
      ((List.range n).map (fun i => (d.drop (i * c)).take c)).flatten
        = d.take (n * c) := by
  intro n
  induction n with
  | zero => simp
  | succ m ih =>
    rw [List.range_succ, List.map_append, List.flatten_append,
      List.map_cons, List.map_nil, List.flatten_cons, List.flatten_nil,
      List.append_nil, ih, Nat.succ_mul, List.take_add]

/-- Concatenating all the chunks written by `serialize` restores the flat
token list. -/
theorem flatten_mkChunks (d : List Tok) : (mkChunks d).flatten = d := by
  rw [mkChunks, flatten_range_chunks]
  refine List.take_of_length_le ?_
  rw [numChunks, chunkSize]
  omega

theorem length_mkChunks (d : List Tok) :
    (mkChunks d).length = numChunks d.length := by
  rw [mkChunks, List.length_map, List.length_range]

/-- Running `consume()` on the encoding of a list of well-formed items,
followed by either end-of-stream or a closing bracket, returns exactly
those items and leaves the tokens after the bracket unconsumed. -/
theorem consume_encList :
    ∀ (xs : List LLLL) (rest : List Tok) (fuel : ℕ),
      wfList xs = true →
      (rest = [] ∨ ∃ r, rest = .tstr "]" :: r) →
      (encList xs).length + rest.length + 1 ≤ fuel →
      consumeF fuel (encList xs ++ rest) = .ok (xs, rest.drop 1)
  | [], rest, fuel => by
    intro _ hrest hfuel
    rw [encList, List.nil_append]
    match fuel, hfuel with
    | f + 1, _ =>
      rcases hrest with h | ⟨r, h⟩
      · subst h
        rfl
      · subst h
        rw [consumeF, if_pos rfl]
        rfl
  | .atom (.intV n) :: xs, rest, fuel => by
    intro hwf hrest hfuel
    rw [wfList, Bool.and_eq_true] at hwf
    rw [encList] at hfuel ⊢
    simp only [encItem, List.length_append, List.length_cons,
      List.length_nil] at hfuel
    match fuel, hfuel with
    | f + 1, hfuel =>
      simp only [encItem, List.cons_append, List.nil_append]
      rw [consumeF]
      rw [if_neg (by simp), if_neg (by simp), if_neg (by simp)]
      rw [show decodeTok (.tint n) = .ok (.atom (.intV n)) from rfl,
        excBindOk,
        consume_encList xs rest f hwf.2 hrest (by omega),
        excBindOk]
  | .atom (.ratV q) :: xs, rest, fuel => by
    intro hwf hrest hfuel
    rw [wfList, Bool.and_eq_true] at hwf
    have h := hwf.1
    rw [wfTree, wfVal] at h
    simp at h
  | .atom (.strV s) :: xs, rest, fuel => by
    intro hwf hrest hfuel
    rw [wfList, Bool.and_eq_true] at hwf
    have hs := hwf.1
    rw [wfTree, wfVal] at hs
    simp only [Bool.and_eq_true, decide_eq_true_eq,
      Option.isNone_iff_eq_none] at hs
    obtain ⟨⟨⟨⟨hbr, hcl⟩, hsent⟩, hnr⟩, -⟩ := hs
    rw [encList] at hfuel ⊢
    simp only [encItem, List.length_append, List.length_cons,
      List.length_nil] at hfuel
    match fuel, hfuel with
    | f + 1, hfuel =>
      simp only [encItem, List.cons_append, List.nil_append]
      rw [consumeF]
      rw [if_neg (by simp [hcl]), if_neg (by simp [hbr]),
        if_neg (by simp [hsent])]
      rw [show decodeTok (.tstr s) = .ok (.atom (.strV s)) by
          rw [decodeTok, hnr],
        excBindOk,
        consume_encList xs rest f hwf.2 hrest (by omega),
        excBindOk]
  | .atom (.fltV lo hi) :: xs, rest, fuel => by
    intro hwf hrest hfuel
    rw [wfList, Bool.and_eq_true] at hwf
    have hs := hwf.1
    rw [wfTree, wfVal] at hs
    simp only [Bool.and_eq_true, decide_eq_true_eq] at hs
    obtain ⟨⟨hlo, hhi⟩, -⟩ := hs
    rw [encList] at hfuel ⊢
    simp only [encItem, List.length_append, List.length_cons,
      List.length_nil] at hfuel
    match fuel, hfuel with
    | f + 1, hfuel =>
      simp only [encItem, List.cons_append, List.nil_append]
      rw [consumeF]
      rw [if_neg (by simp [sentinelStr]), if_neg (by simp [sentinelStr]),
        if_pos rfl]
      rw [readFloatWords, if_pos (by omega)]
      rw [excBindOk]
      simp only [Int.toNat_natCast]
      rw [consume_encList xs rest f hwf.2 hrest (by omega),
        excBindOk]
  | .comp ys :: xs, rest, fuel => by
    intro hwf hrest hfuel
    rw [wfList, Bool.and_eq_true] at hwf
    have hys : wfList ys = true := by
      have := hwf.1
      rwa [wfTree] at this
    rw [encList] at hfuel ⊢
    simp only [encItem, List.length_append, List.length_cons,
      List.length_nil] at hfuel
    match fuel, hfuel with
    | f + 1, hfuel =>
      simp only [encItem, List.cons_append, List.nil_append,
        List.append_assoc]
      rw [consumeF]
      rw [if_neg (by simp), if_pos rfl]
      rw [consume_encList ys (.tstr "]" :: (encList xs ++ rest)) f hys
        (Or.inr ⟨encList xs ++ rest, rfl⟩)
        (by simp only [List.length_cons, List.length_append]; omega)]
      rw [excBindOk]
      simp only [List.drop_one, List.tail_cons]
      rw [consume_encList xs rest f hwf.2 hrest (by omega),
        excBindOk]
      simp only [List.drop_one]
termination_by xs => sizeOf xs

/-- Every token the encoder emits for a well-formed tree is JSON
serializable (well-formedness excludes rationals, the only offending
kind). -/
theorem encList_allJson :
    ∀ xs : List LLLL, wfList xs = true →
      (encList xs).all jsonSerializable = true
  | [] => fun _ => rfl
  | .atom (.intV n) :: xs => by
    intro hwf
    rw [wfList, Bool.and_eq_true] at hwf
    rw [encList]
    simp [encItem, List.all_append, jsonSerializable,
      encList_allJson xs hwf.2]
  | .atom (.ratV q) :: xs => by
    intro hwf
    rw [wfList, Bool.and_eq_true] at hwf
    have h := hwf.1
    rw [wfTree, wfVal] at h
    simp at h
  | .atom (.strV t) :: xs => by
    intro hwf
    rw [wfList, Bool.and_eq_true] at hwf
    rw [encList]
    simp [encItem, List.all_append, jsonSerializable,
      encList_allJson xs hwf.2]
  | .atom (.fltV lo hi) :: xs => by
    intro hwf
    rw [wfList, Bool.and_eq_true] at hwf
    rw [encList]
    simp [encItem, List.all_append, jsonSerializable,
      encList_allJson xs hwf.2]
  | .comp ys :: xs => by
    intro hwf
    rw [wfList, Bool.and_eq_true] at hwf
    have hys : wfList ys = true := by
      have h := hwf.1
      rwa [wfTree] at h
    rw [encList]
    simp [encItem, List.all_append, jsonSerializable,
      encList_allJson ys hys, encList_allJson xs hwf.2]
termination_by xs => sizeOf xs

/-- C1 (amended): the composition decode after encode is the identity on
every tree whose atomic values are integers, non-NaN floats with 32-bit
words, and ASCII text avoiding `'['`, `']'`, the sentinel, and any
substring matching the ratio pattern.  The code forces the further
exceptions: a tree holding an exact rational cannot be encoded at all
(`json.dump` raises `TypeError` on a `Fraction`); a text token
containing the ratio pattern decodes into the exact rational of its
first match when the matched denominator is nonzero (decode-side only —
encoding performs no such detection). -/
theorem claim_C1_roundtrip :
    (∀ xs : List LLLL, wfList xs = true →
      (serialize (.comp xs) >>= parseNative) = .ok (.comp xs))
    ∧ (∀ (q : ℚ) (xs : List LLLL),
        serialize (.comp (.atom (.ratV q) :: xs)) = .error jsonDumpErr)
    ∧ (∀ (s : String) (num : ℤ) (den : ℕ),
        ratioSearch s = some (num, den) → den ≠ 0 →
        decodeTok (.tstr s) = .ok (.atom (.ratV ((num : ℚ) / (den : ℚ)))))
    ∧ (∀ s : String, encItem (.atom (.strV s)) = [.tstr s]) := by
  refine ⟨?_, ?_, ?_, fun s => rfl⟩
  · intro xs hwf
    rw [serialize]
    simp only [serializeToks]
    rw [if_pos (encList_allJson xs hwf), excBindOk]
    simp only [parseNative]
    rw [if_pos (le_of_eq (length_mkChunks (encList xs)).symm)]
    rw [List.take_of_length_le (le_of_eq (length_mkChunks (encList xs))),
      flatten_mkChunks]
    have hc := consume_encList xs [] ((encList xs).length + 1) hwf
      (Or.inl rfl) (by simp)
    rw [List.append_nil] at hc
    rw [hc]
    rfl
  · intro q xs
    rw [serialize, if_neg]
    simp [serializeToks, encList, encItem, jsonSerializable]
  · intro s num den hsearch hden
    rw [decodeTok]
    simp only [hsearch]
    rw [if_neg hden]

/-- Witness for C1: the roundtrip at a tree holding an integer, a
non-NaN float, safe ASCII text and a nested composite; the encode
failure at a rational-bearing tree; the ratio conversion at `"-40/23"`;
and the asymmetry conjunct at `"tic toc"`. -/
theorem claim_C1_witness :
    (serialize (.comp [.atom (.intV 5), .atom (.fltV 7 9),
        .atom (.strV "hi there"), .comp [.atom (.intV 2), .comp []]])
      >>= parseNative)
      = .ok (.comp [.atom (.intV 5), .atom (.fltV 7 9),
          .atom (.strV "hi there"), .comp [.atom (.intV 2), .comp []]])
    ∧ serialize (.comp [.atom (.ratV (3/4))]) = .error jsonDumpErr
    ∧ decodeTok (.tstr "-40/23")
      = .ok (.atom (.ratV (((-40 : ℤ) : ℚ) / ((23 : ℕ) : ℚ))))
    ∧ encItem (.atom (.strV "tic toc")) = [.tstr "tic toc"] :=
  ⟨claim_C1_roundtrip.1 _ (by decide),
   claim_C1_roundtrip.2.1 (3/4) [],
   claim_C1_roundtrip.2.2.1 "-40/23" (-40) 23 (by decide) (by decide),
   claim_C1_roundtrip.2.2.2 "tic toc"⟩

/-- C1 counterexample: the text atom `"["` — which does not match the
ratio pattern, so the claim's sole exception does not cover it — encodes
to the structural open-bracket token, and decoding turns it into an empty
composite child: the roundtrip changes the tree's shape. -/
theorem claim_C1_counterexample :
    (serialize (.comp [.atom (.strV "[")]) >>= parseNative)
      = .ok (.comp [.comp []])
    ∧ (LLLL.comp [.comp []]) ≠ .comp [.atom (.strV "[")]
    ∧ ratioSearch "[" = none := by
  refine ⟨by decide, by decide, by decide⟩

end LlllVerif